import Mathlib

/-!
Verification of the GridCellNeighborhoods C library (shallow embedding).

The embedding follows the C sources:
  src/Kiro/c/src/position.c
  src/Kiro/c/src/grid.c
  src/Kiro/c/src/position_set.c
  src/Kiro/c/src/neighborhood_calculator.c
C `int` values are modelled as `Int` (signed overflow is undefined behaviour
in C, so only the overflow-free behaviour is modelled).  A possibly-NULL
pointer argument is modelled as an `Option`.  A `PositionSet` is modelled by
its insertion-ordered backing array, a `List Position`; the mutating C
operations become pure functions returning the new list (and, for `add`,
the `bool` result).  Memory-allocation failure is not modelled.
-/

/-- Mirrors `struct Position` from position.h: two C `int` fields. -/
structure Position where
  row : Int
  column : Int
deriving DecidableEq

/-- Mirrors `position_create` from position.c. -/
def position_create (row column : Int) : Position :=
  { row := row, column := column }

/-- Mirrors `position_manhattan_distance` from position.c:
`abs(r1 - r2) + abs(c1 - c2)` (C `abs` on `int`, modelled by `Int.natAbs`
cast back to `Int`). -/
def position_manhattan_distance (pos1 pos2 : Position) : Int :=
  ((pos1.row - pos2.row).natAbs : Int) + ((pos1.column - pos2.column).natAbs : Int)

/-- Mirrors `position_equals` from position.c: structural equality of both fields. -/
def position_equals (pos1 pos2 : Position) : Bool :=
  pos1.row == pos2.row && pos1.column == pos2.column

/-- Mirrors `ErrorCode` from exceptions.h. -/
inductive ErrorCode where
  | ERROR_NONE
  | ERROR_INVALID_GRID_DIMENSIONS
  | ERROR_POSITION_OUT_OF_BOUNDS
  | ERROR_INVALID_DISTANCE_THRESHOLD
  | ERROR_MEMORY_ALLOCATION
deriving DecidableEq

export ErrorCode (ERROR_NONE ERROR_INVALID_GRID_DIMENSIONS ERROR_POSITION_OUT_OF_BOUNDS ERROR_INVALID_DISTANCE_THRESHOLD ERROR_MEMORY_ALLOCATION)

/-- Mirrors `struct Grid` from grid.h: `height`, `width`,
`positive_cells` (the heap array, modelled by the list of positions actually
stored there) and `positive_cell_count` (an independent C `int` field, which
the C code never re-checks against the array length). -/
structure Grid where
  height : Int
  width : Int
  positive_cells : List Position
  positive_cell_count : Int

/-- Mirrors `grid_create` from grid.c.  The `positive_cells` argument is a
possibly-NULL buffer (`Option`); `memcpy` of `positive_cell_count` elements is
modelled by `List.take` of the buffer contents.  Dimension validation fails
closed by returning `none` (C: `NULL`); the cell coordinates are not
inspected. -/
def grid_create (height width : Int) (positive_cells : Option (List Position))
    (positive_cell_count : Int) : Option Grid :=
  if height ≤ 0 ∨ width ≤ 0 then
    none
  else
    some { height := height
           width := width
           positive_cell_count := positive_cell_count
           positive_cells :=
             match positive_cells with
             | some buf =>
               if 0 < positive_cell_count then buf.take positive_cell_count.toNat else []
             | none => [] }

/-- Mirrors `grid_is_valid_position` from grid.c (non-NULL grid case):
`pos.row >= 0 && pos.row < height && pos.column >= 0 && pos.column < width`. -/
def grid_is_valid_position (grid : Grid) (pos : Position) : Bool :=
  decide (0 ≤ pos.row) && decide (pos.row < grid.height) &&
  decide (0 ≤ pos.column) && decide (pos.column < grid.width)

/-- The positions the C code actually reads when it iterates
`for (i = 0; i < positive_cell_count; i++) ... positive_cells[i]`, assuming
every such read is in bounds: the first `positive_cell_count` stored cells. -/
def grid_cells_read (grid : Grid) : List Position :=
  grid.positive_cells.take grid.positive_cell_count.toNat

/-- The C loops over `positive_cells` index exactly `0 ≤ i < positive_cell_count`;
those array reads all stay within the allocation iff the stored count does not
exceed the number of positions actually stored. -/
def grid_reads_in_bounds (grid : Grid) : Prop :=
  grid.positive_cell_count.toNat ≤ grid.positive_cells.length

/-- Mirrors `grid_validate_positions` from grid.c (non-NULL grid case): every
cell the index loop reads must satisfy `grid_is_valid_position`. -/
def grid_validate_positions (grid : Grid) : Bool :=
  (grid_cells_read grid).all (fun p => grid_is_valid_position grid p)

/-- Mirrors `position_set_create` from position_set.c: the empty set. -/
def position_set_create : List Position := []

/-- Mirrors `position_set_contains` from position_set.c: linear scan with
`position_equals`. -/
def position_set_contains (set : List Position) (pos : Position) : Bool :=
  set.any (fun p => position_equals p pos)

/-- Mirrors `position_set_add` from position_set.c: if the position is already
present return `false` and leave the set unchanged, otherwise append it and
return `true` (reallocation failure is not modelled). -/
def position_set_add (set : List Position) (pos : Position) : List Position × Bool :=
  if position_set_contains set pos then (set, false) else (set ++ [pos], true)

/-- Mirrors `position_set_size` from position_set.c. -/
def position_set_size (set : List Position) : Nat := set.length

/-- Mirrors `position_set_clear` from position_set.c: `size = 0`. -/
def position_set_clear (_set : List Position) : List Position := []

/-- Modelled from the spec: the implementation file boundary_handler.c is not
present in the sources (only the declaration in boundary_handler.h and its
callers are).  Spec section 4.4: `isWithinBounds(pos, grid)` is "defined
identically to `Grid.isValidPosition`"; an implementer "may simply delegate
one to the other". -/
def boundary_handler_is_within_bounds (pos : Position) (grid : Grid) : Bool :=
  grid_is_valid_position grid pos

/-- The integers `lo, lo+1, ..., hi`, modelling a C
`for (x = lo; x <= hi; x++)` loop. -/
def intRange (lo hi : Int) : List Int :=
  (List.range (hi + 1 - lo).toNat).map (fun k : Nat => lo + (k : Int))

/-- Mirrors `enumerate_neighborhood` from neighborhood_calculator.c: for
`delta_row` in `[-N, N]` and `delta_col` in `[-(N - |delta_row|), N - |delta_row|]`,
insert the in-bounds candidates into a fresh set. -/
def enumerate_neighborhood (center : Position) (distance_threshold : Int)
    (grid : Grid) : List Position :=
  (intRange (-distance_threshold) distance_threshold).foldl
    (fun neighborhood delta_row =>
      let remaining_distance := distance_threshold - ((delta_row.natAbs : Int))
      (intRange (-remaining_distance) remaining_distance).foldl
        (fun neighborhood delta_col =>
          let candidate := position_create (center.row + delta_row) (center.column + delta_col)
          if boundary_handler_is_within_bounds candidate grid then
            (position_set_add neighborhood candidate).1
          else
            neighborhood)
        neighborhood)
    position_set_create

/-- The fast-path double loop of `neighborhood_calculator_get_cells`
(neighborhood_calculator.c lines 71-79): insert every cell
`(row, col)` with `0 <= row < height`, `0 <= col < width` into the result set. -/
def all_grid_cells (grid : Grid) : List Position :=
  (intRange 0 (grid.height - 1)).foldl
    (fun all_cells row =>
      (intRange 0 (grid.width - 1)).foldl
        (fun all_cells col => (position_set_add all_cells (position_create row col)).1)
        all_cells)
    position_set_create

/-- Mirrors `neighborhood_calculator_get_cells` from neighborhood_calculator.c.
The NULL-or-set return value together with the `error_code` out-parameter is
modelled as an `Except`.  Memory-allocation failure is not modelled. -/
def neighborhood_calculator_get_cells (grid : Option Grid) (distance_threshold : Int) :
    Except ErrorCode (List Position) :=
  match grid with
  | none => Except.error ERROR_INVALID_GRID_DIMENSIONS
  | some g =>
    if g.height ≤ 0 ∨ g.width ≤ 0 then
      Except.error ERROR_INVALID_GRID_DIMENSIONS
    else if distance_threshold < 0 then
      Except.error ERROR_INVALID_DISTANCE_THRESHOLD
    else if grid_validate_positions g = false then
      Except.error ERROR_POSITION_OUT_OF_BOUNDS
    else if g.positive_cell_count = 0 then
      Except.ok position_set_create
    else if distance_threshold ≥ (g.height - 1) + (g.width - 1) then
      Except.ok (all_grid_cells g)
    else
      Except.ok ((grid_cells_read g).foldl
        (fun all_cells c =>
          (enumerate_neighborhood c distance_threshold g).foldl
            (fun all_cells p => (position_set_add all_cells p).1)
            all_cells)
        position_set_create)

/-- Mirrors `neighborhood_calculator_count` from neighborhood_calculator.c:
`-1` when `get_cells` fails, otherwise the size of the returned set; the
returned `ErrorCode` is the one `get_cells` left in the out-parameter. -/
def neighborhood_calculator_count (grid : Option Grid) (distance_threshold : Int) :
    Int × ErrorCode :=
  match neighborhood_calculator_get_cells grid distance_threshold with
  | Except.error e => (-1, e)
  | Except.ok cells => (Int.ofNat (position_set_size cells), ERROR_NONE)

/-! ### Basic facts about positions and position sets -/

theorem position_equals_iff (p q : Position) : position_equals p q = true ↔ p = q := by
  cases p
  cases q
  simp [position_equals, Position.mk.injEq]

theorem position_set_contains_iff (s : List Position) (p : Position) :
    position_set_contains s p = true ↔ p ∈ s := by
  simp only [position_set_contains, List.any_eq_true]
  constructor
  · rintro ⟨q, hq, he⟩
    rw [position_equals_iff] at he
    exact he ▸ hq
  · intro hp
    exact ⟨p, hp, (position_equals_iff p p).mpr rfl⟩

theorem position_set_add_fst_of_mem {s : List Position} {p : Position} (h : p ∈ s) :
    (position_set_add s p).1 = s := by
  simp [position_set_add, (position_set_contains_iff s p).mpr h]

theorem position_set_add_fst_of_not_mem {s : List Position} {p : Position} (h : p ∉ s) :
    (position_set_add s p).1 = s ++ [p] := by
  have hc : position_set_contains s p = false := by
    cases hb : position_set_contains s p
    · rfl
    · exact absurd ((position_set_contains_iff s p).mp hb) h
  simp [position_set_add, hc]

theorem mem_position_set_add_fst (s : List Position) (p q : Position) :
    q ∈ (position_set_add s p).1 ↔ q ∈ s ∨ q = p := by
  by_cases h : p ∈ s
  · rw [position_set_add_fst_of_mem h]
    constructor
    · exact Or.inl
    · rintro (hq | rfl)
      · exact hq
      · exact h
  · rw [position_set_add_fst_of_not_mem h]
    simp

theorem nodup_position_set_add_fst {s : List Position} (p : Position) (h : s.Nodup) :
    (position_set_add s p).1.Nodup := by
  by_cases hm : p ∈ s
  · rw [position_set_add_fst_of_mem hm]
    exact h
  · rw [position_set_add_fst_of_not_mem hm]
    simp [List.nodup_append, h, hm]

theorem position_set_add_snd_iff (s : List Position) (p : Position) :
    (position_set_add s p).2 = true ↔ p ∉ s := by
  by_cases h : p ∈ s
  · simp [position_set_add, (position_set_contains_iff s p).mpr h, h]
  · have hc : position_set_contains s p = false := by
      cases hb : position_set_contains s p
      · rfl
      · exact absurd ((position_set_contains_iff s p).mp hb) h
    simp [position_set_add, hc, h]

/-! ### Generic lemmas about the fold-and-insert loops -/

theorem mem_foldl_step {β : Type} (step : List Position → β → List Position)
    (P : β → Position → Prop)
    (hstep : ∀ acc d q, q ∈ step acc d ↔ q ∈ acc ∨ P d q) :
    ∀ (l : List β) (acc : List Position) (q : Position),
      q ∈ l.foldl step acc ↔ q ∈ acc ∨ ∃ d ∈ l, P d q := by
  intro l
  induction l with
  | nil => simp
  | cons d l ih =>
    intro acc q
    rw [List.foldl_cons, ih, hstep]
    constructor
    · rintro ((hq | hP) | ⟨e, he, hPe⟩)
      · exact Or.inl hq
      · exact Or.inr ⟨d, List.mem_cons_self d l, hP⟩
      · exact Or.inr ⟨e, List.mem_cons_of_mem d he, hPe⟩
    · rintro (hq | ⟨e, he, hPe⟩)
      · exact Or.inl (Or.inl hq)
      · rcases List.mem_cons.mp he with rfl | he
        · exact Or.inl (Or.inr hPe)
        · exact Or.inr ⟨e, he, hPe⟩

theorem nodup_foldl_step {β : Type} (step : List Position → β → List Position)
    (hstep : ∀ acc d, acc.Nodup → (step acc d).Nodup) :
    ∀ (l : List β) (acc : List Position), acc.Nodup → (l.foldl step acc).Nodup := by
  intro l
  induction l with
  | nil => intro acc h; simpa using h
  | cons d l ih =>
    intro acc h
    rw [List.foldl_cons]
    exact ih _ (hstep acc d h)

theorem mem_intRange (lo hi x : Int) : x ∈ intRange lo hi ↔ lo ≤ x ∧ x ≤ hi := by
  unfold intRange
  rw [List.mem_map]
  constructor
  · rintro ⟨k, hk, rfl⟩
    rw [List.mem_range] at hk
    omega
  · rintro ⟨h1, h2⟩
    refine ⟨(x - lo).toNat, ?_, ?_⟩
    · rw [List.mem_range]
      omega
    · omega

/-! ### Characterizing the neighborhood enumeration -/

theorem mem_enumerate_neighborhood (c : Position) (n : Int) (g : Grid) (q : Position) :
    q ∈ enumerate_neighborhood c n g ↔
      boundary_handler_is_within_bounds q g = true ∧ position_manhattan_distance c q ≤ n := by
  have hinscond : ∀ (cand : Position) (acc : List Position) (p : Position),
      p ∈ (if boundary_handler_is_within_bounds cand g then (position_set_add acc cand).1 else acc)
        ↔ p ∈ acc ∨ (cand = p ∧ boundary_handler_is_within_bounds p g = true) := by
    intro cand acc p
    by_cases hb : boundary_handler_is_within_bounds cand g = true
    · rw [if_pos hb, mem_position_set_add_fst]
      constructor
      · rintro (hp | rfl)
        · exact Or.inl hp
        · exact Or.inr ⟨rfl, hb⟩
      · rintro (hp | ⟨rfl, _⟩)
        · exact Or.inl hp
        · exact Or.inr rfl
    · rw [if_neg hb]
      constructor
      · exact Or.inl
      · rintro (hp | ⟨rfl, hbp⟩)
        · exact hp
        · exact absurd hbp hb
  have hinner : ∀ (dr : Int) (acc : List Position) (p : Position),
      p ∈ (intRange (-(n - ((dr.natAbs : Int)))) (n - ((dr.natAbs : Int)))).foldl
          (fun acc2 dc =>
            if boundary_handler_is_within_bounds (position_create (c.row + dr) (c.column + dc)) g then
              (position_set_add acc2 (position_create (c.row + dr) (c.column + dc))).1
            else acc2) acc
        ↔ p ∈ acc ∨ ∃ dc ∈ intRange (-(n - ((dr.natAbs : Int)))) (n - ((dr.natAbs : Int))),
            position_create (c.row + dr) (c.column + dc) = p ∧
            boundary_handler_is_within_bounds p g = true := by
    intro dr acc p
    exact mem_foldl_step _
      (fun dc p => position_create (c.row + dr) (c.column + dc) = p ∧
        boundary_handler_is_within_bounds p g = true)
      (fun acc2 dc p => hinscond (position_create (c.row + dr) (c.column + dc)) acc2 p) _ acc p
  have houter : q ∈ enumerate_neighborhood c n g ↔
      q ∈ position_set_create ∨ ∃ dr ∈ intRange (-n) n,
        ∃ dc ∈ intRange (-(n - ((dr.natAbs : Int)))) (n - ((dr.natAbs : Int))),
          position_create (c.row + dr) (c.column + dc) = q ∧
          boundary_handler_is_within_bounds q g = true := by
    exact mem_foldl_step _
      (fun dr p => ∃ dc ∈ intRange (-(n - ((dr.natAbs : Int)))) (n - ((dr.natAbs : Int))),
        position_create (c.row + dr) (c.column + dc) = p ∧
        boundary_handler_is_within_bounds p g = true)
      (fun acc dr p => hinner dr acc p) _ _ q
  rw [houter]
  constructor
  · rintro (hq | ⟨dr, hdr, dc, hdc, rfl, hb⟩)
    · exact absurd hq (List.not_mem_nil q)
    · rw [mem_intRange] at hdr hdc
      refine ⟨hb, ?_⟩
      simp only [position_manhattan_distance, position_create]
      omega
  · rintro ⟨hb, hd⟩
    refine Or.inr ⟨q.row - c.row, ?_, q.column - c.column, ?_, ?_, hb⟩
    · rw [mem_intRange]
      simp only [position_manhattan_distance] at hd
      omega
    · rw [mem_intRange]
      simp only [position_manhattan_distance] at hd
      omega
    · cases q
      simp [position_create]

theorem mem_all_grid_cells (g : Grid) (q : Position) :
    q ∈ all_grid_cells g ↔ grid_is_valid_position g q = true := by
  have hinner : ∀ (row : Int) (acc : List Position) (p : Position),
      p ∈ (intRange 0 (g.width - 1)).foldl
          (fun acc2 col => (position_set_add acc2 (position_create row col)).1) acc
        ↔ p ∈ acc ∨ ∃ col ∈ intRange 0 (g.width - 1), position_create row col = p := by
    intro row acc p
    refine mem_foldl_step _ (fun col p => position_create row col = p) ?_ _ acc p
    intro acc2 col p
    rw [mem_position_set_add_fst]
    constructor
    · rintro (hp | rfl)
      · exact Or.inl hp
      · exact Or.inr rfl
    · rintro (hp | rfl)
      · exact Or.inl hp
      · exact Or.inr rfl
  have houter : q ∈ all_grid_cells g ↔
      q ∈ position_set_create ∨ ∃ row ∈ intRange 0 (g.height - 1),
        ∃ col ∈ intRange 0 (g.width - 1), position_create row col = q := by
    exact mem_foldl_step _
      (fun row p => ∃ col ∈ intRange 0 (g.width - 1), position_create row col = p)
      (fun acc row p => hinner row acc p) _ _ q
  rw [houter]
  simp only [grid_is_valid_position, Bool.and_eq_true, decide_eq_true_eq]
  constructor
  · rintro (hq | ⟨row, hrow, col, hcol, rfl⟩)
    · exact absurd hq (List.not_mem_nil q)
    · rw [mem_intRange] at hrow hcol
      simp only [position_create]
      omega
  · rintro ⟨⟨⟨h1, h2⟩, h3⟩, h4⟩
    refine Or.inr ⟨q.row, ?_, q.column, ?_, ?_⟩
    · rw [mem_intRange]
      omega
    · rw [mem_intRange]
      omega
    · cases q
      simp [position_create]

/-! ### Nodup of every result set -/

theorem nodup_all_grid_cells (g : Grid) : (all_grid_cells g).Nodup := by
  refine nodup_foldl_step _ ?_ _ position_set_create List.nodup_nil
  intro acc row hacc
  refine nodup_foldl_step _ ?_ _ acc hacc
  intro acc2 col h2
  exact nodup_position_set_add_fst _ h2

theorem get_cells_ok_nodup (og : Option Grid) (n : Int) (s : List Position)
    (h : neighborhood_calculator_get_cells og n = Except.ok s) : s.Nodup := by
  cases og with
  | none => exact absurd h (by simp [neighborhood_calculator_get_cells])
  | some g =>
    rw [neighborhood_calculator_get_cells] at h
    by_cases h1 : g.height ≤ 0 ∨ g.width ≤ 0
    · rw [if_pos h1] at h
      exact absurd h (by simp)
    rw [if_neg h1] at h
    by_cases h2 : n < 0
    · rw [if_pos h2] at h
      exact absurd h (by simp)
    rw [if_neg h2] at h
    by_cases h3 : grid_validate_positions g = false
    · rw [if_pos h3] at h
      exact absurd h (by simp)
    rw [if_neg h3] at h
    by_cases h4 : g.positive_cell_count = 0
    · rw [if_pos h4, Except.ok.injEq] at h
      subst h
      exact List.nodup_nil
    rw [if_neg h4] at h
    by_cases h5 : n ≥ (g.height - 1) + (g.width - 1)
    · rw [if_pos h5, Except.ok.injEq] at h
      subst h
      exact nodup_all_grid_cells g
    rw [if_neg h5, Except.ok.injEq] at h
    subst h
    refine nodup_foldl_step _ ?_ _ _ List.nodup_nil
    intro acc c hacc
    refine nodup_foldl_step _ ?_ _ _ hacc
    intro acc2 p h2
    exact nodup_position_set_add_fst _ h2

/-! ### Helper characterizations of grid predicates -/

theorem grid_cells_read_eq {g : Grid}
    (hwf : g.positive_cell_count = (g.positive_cells.length : Int)) :
    grid_cells_read g = g.positive_cells := by
  rw [grid_cells_read, hwf]
  simp

theorem grid_is_valid_position_iff (g : Grid) (p : Position) :
    grid_is_valid_position g p = true ↔
      0 ≤ p.row ∧ p.row < g.height ∧ 0 ≤ p.column ∧ p.column < g.width := by
  simp [grid_is_valid_position, and_assoc]

theorem grid_validate_positions_iff (g : Grid) :
    grid_validate_positions g = true ↔
      ∀ c ∈ grid_cells_read g, grid_is_valid_position g c = true := by
  simp [grid_validate_positions, List.all_eq_true]

theorem dist_le_diameter {g : Grid} {c p : Position}
    (hc : grid_is_valid_position g c = true) (hp : grid_is_valid_position g p = true) :
    position_manhattan_distance c p ≤ (g.height - 1) + (g.width - 1) := by
  rw [grid_is_valid_position_iff] at hc hp
  simp only [position_manhattan_distance]
  omega

/-! ### The master specification of `neighborhood_calculator_get_cells` -/

/-- On every validated input (well-formed cell count, positive dimensions,
in-bounds positive cells, non-negative threshold) `get_cells` succeeds with a
duplicate-free set containing exactly the in-bounds positions within Manhattan
distance `n` of some positive cell — on the saturation fast path as well as on
the general enumeration path. -/
theorem get_cells_spec (g : Grid) (n : Int)
    (hwf : g.positive_cell_count = (g.positive_cells.length : Int))
    (hh : 0 < g.height) (hw : 0 < g.width)
    (hv : grid_validate_positions g = true) (hn : 0 ≤ n) :
    ∃ s, neighborhood_calculator_get_cells (some g) n = Except.ok s ∧ s.Nodup ∧
      ∀ p, p ∈ s ↔ (grid_is_valid_position g p = true ∧
        ∃ c ∈ g.positive_cells, position_manhattan_distance c p ≤ n) := by
  have hread := grid_cells_read_eq hwf
  have h1 : ¬ (g.height ≤ 0 ∨ g.width ≤ 0) := by omega
  have h2 : ¬ n < 0 := by omega
  have h3 : ¬ grid_validate_positions g = false := by simp [hv]
  rw [neighborhood_calculator_get_cells, if_neg h1, if_neg h2, if_neg h3]
  by_cases h4 : g.positive_cell_count = 0
  · have hlen : g.positive_cells.length = 0 := by omega
    have hcells : g.positive_cells = [] := List.eq_nil_of_length_eq_zero hlen
    rw [if_pos h4]
    refine ⟨position_set_create, rfl, List.nodup_nil, ?_⟩
    intro p
    simp [position_set_create, hcells]
  · rw [if_neg h4]
    have hne : g.positive_cells ≠ [] := by
      intro hnil
      rw [hnil] at hwf
      simp at hwf
      omega
    have hvalid : ∀ c ∈ g.positive_cells, grid_is_valid_position g c = true := by
      intro c hc
      exact (grid_validate_positions_iff g).mp hv c (hread ▸ hc)
    by_cases h5 : n ≥ (g.height - 1) + (g.width - 1)
    · rw [if_pos h5]
      refine ⟨all_grid_cells g, rfl, nodup_all_grid_cells g, ?_⟩
      intro p
      rw [mem_all_grid_cells]
      constructor
      · intro hp
        refine ⟨hp, ?_⟩
        obtain ⟨c, hc⟩ : ∃ c, c ∈ g.positive_cells := by
          cases hcl : g.positive_cells with
          | nil => exact absurd hcl hne
          | cons a l => exact ⟨a, hcl ▸ List.mem_cons_self a l⟩
        exact ⟨c, hc, le_trans (dist_le_diameter (hvalid c hc) hp) h5⟩
      · rintro ⟨hp, _⟩
        exact hp
    · rw [if_neg h5]
      refine ⟨_, rfl, ?_, ?_⟩
      · refine nodup_foldl_step _ ?_ _ _ List.nodup_nil
        intro acc c hacc
        refine nodup_foldl_step _ ?_ _ _ hacc
        intro acc2 p hp
        exact nodup_position_set_add_fst _ hp
      · intro p
        have hinner : ∀ (c : Position) (acc : List Position) (q : Position),
            q ∈ (enumerate_neighborhood c n g).foldl
                (fun a p => (position_set_add a p).1) acc
              ↔ q ∈ acc ∨ ∃ d ∈ enumerate_neighborhood c n g, q = d := by
          intro c acc q
          exact mem_foldl_step _ (fun d q => q = d)
            (fun a d r => mem_position_set_add_fst a d r) _ acc q
        have houter := mem_foldl_step
          (fun all_cells c =>
            (enumerate_neighborhood c n g).foldl
              (fun all_cells p => (position_set_add all_cells p).1) all_cells)
          (fun c q => ∃ d ∈ enumerate_neighborhood c n g, q = d)
          (fun acc c q => hinner c acc q)
          (grid_cells_read g) position_set_create p
        rw [houter, hread]
        constructor
        · rintro (hp | ⟨c, hc, d, hd, rfl⟩)
          · exact absurd hp (List.not_mem_nil p)
          · have := (mem_enumerate_neighborhood c n g _).mp hd
            exact ⟨this.1, c, hc, this.2⟩
        · rintro ⟨hp, c, hc, hd⟩
          exact Or.inr ⟨c, hc, p,
            (mem_enumerate_neighborhood c n g p).mpr ⟨hp, hd⟩, rfl⟩

/-! ### Counting: from the result list to a Finset of positions -/

/-- The set of all in-bounds positions of a grid, as a Finset. -/
def grid_cell_finset (g : Grid) : Finset Position :=
  (Finset.Ico (0 : Int) g.height ×ˢ Finset.Ico (0 : Int) g.width).image
    (fun rc => position_create rc.1 rc.2)

theorem mem_grid_cell_finset (g : Grid) (p : Position) :
    p ∈ grid_cell_finset g ↔ grid_is_valid_position g p = true := by
  rw [grid_cell_finset, grid_is_valid_position_iff]
  simp only [Finset.mem_image, Finset.mem_product, Finset.mem_Ico]
  constructor
  · rintro ⟨⟨r, c⟩, ⟨⟨hr0, hr1⟩, ⟨hc0, hc1⟩⟩, rfl⟩
    exact ⟨hr0, hr1, hc0, hc1⟩
  · rintro ⟨hr0, hr1, hc0, hc1⟩
    refine ⟨(p.row, p.column), ⟨⟨hr0, hr1⟩, ⟨hc0, hc1⟩⟩, ?_⟩
    cases p
    rfl

theorem position_create_injective :
    Function.Injective (fun rc : Int × Int => position_create rc.1 rc.2) := by
  rintro ⟨r1, c1⟩ ⟨r2, c2⟩ h
  simpa [position_create, Position.mk.injEq, Prod.ext_iff] using h

theorem card_grid_cell_finset (g : Grid) :
    (grid_cell_finset g).card = g.height.toNat * g.width.toNat := by
  rw [grid_cell_finset, Finset.card_image_of_injective _ position_create_injective,
    Finset.card_product, Int.card_Ico, Int.card_Ico]
  simp

/-! ### Claim C5: Manhattan distance -/

/-- C5: `position_manhattan_distance a b` equals `|a.row - b.row| + |a.column - b.column|`;
it is non-negative, symmetric, and zero exactly when the two positions are
structurally equal. -/
theorem manhattan_distance_props (a b : Position) :
    position_manhattan_distance a b = |a.row - b.row| + |a.column - b.column| ∧
    0 ≤ position_manhattan_distance a b ∧
    position_manhattan_distance a b = position_manhattan_distance b a ∧
    (position_manhattan_distance a b = 0 ↔ a = b) := by
  cases a with | mk ar ac =>
  cases b with | mk br bc =>
  refine ⟨?_, ?_, ?_, ?_⟩
  · simp only [position_manhattan_distance, Int.abs_eq_natAbs]
  · simp only [position_manhattan_distance]
    omega
  · simp only [position_manhattan_distance]
    omega
  · simp only [position_manhattan_distance, Position.mk.injEq]
    omega

/-! ### Claim C6: grid construction -/

/-- C6: `grid_create` succeeds exactly when `height > 0` and `width > 0` — the
coordinates of the supplied cells are never inspected; on success the stored
height, width, and cell count equal the inputs, and the stored cells are the
(copied) contents of the caller's buffer. -/
theorem grid_create_some_eq (h w cnt : Int) (l : List Position) :
    grid_create h w (some l) cnt =
      if h ≤ 0 ∨ w ≤ 0 then none
      else some { height := h, width := w, positive_cell_count := cnt,
                  positive_cells := if 0 < cnt then l.take cnt.toNat else [] } := by
  simp only [grid_create]

theorem grid_create_none_eq (h w cnt : Int) :
    grid_create h w none cnt =
      if h ≤ 0 ∨ w ≤ 0 then none
      else some { height := h, width := w, positive_cell_count := cnt,
                  positive_cells := [] } := by
  simp only [grid_create]

/-- C6: `grid_create` succeeds exactly when `height > 0` and `width > 0` — the
coordinates of the supplied cells are never inspected; on success the stored
height, width, and cell count equal the inputs, and the stored cells are the
(copied) contents of the caller's buffer. -/
theorem grid_create_spec (h w : Int) (buf : Option (List Position)) (cnt : Int) :
    ((grid_create h w buf cnt).isSome ↔ 0 < h ∧ 0 < w) ∧
    (∀ g, grid_create h w buf cnt = some g →
      g.height = h ∧ g.width = w ∧ g.positive_cell_count = cnt) ∧
    (∀ l g, buf = some l → cnt = (l.length : Int) →
      grid_create h w buf cnt = some g → g.positive_cells = l) := by
  refine ⟨?_, ?_, ?_⟩
  · by_cases hd : h ≤ 0 ∨ w ≤ 0
    · cases buf with
      | none =>
        rw [grid_create_none_eq, if_pos hd]
        simp only [Option.isSome_none, Bool.false_eq_true, false_iff]
        omega
      | some l =>
        rw [grid_create_some_eq, if_pos hd]
        simp only [Option.isSome_none, Bool.false_eq_true, false_iff]
        omega
    · cases buf with
      | none =>
        rw [grid_create_none_eq, if_neg hd]
        simp only [Option.isSome_some, true_iff]
        omega
      | some l =>
        rw [grid_create_some_eq, if_neg hd]
        simp only [Option.isSome_some, true_iff]
        omega
  · intro g hg
    by_cases hd : h ≤ 0 ∨ w ≤ 0
    · cases buf with
      | none =>
        rw [grid_create_none_eq, if_pos hd] at hg
        exact absurd hg (by simp)
      | some l =>
        rw [grid_create_some_eq, if_pos hd] at hg
        exact absurd hg (by simp)
    · cases buf with
      | none =>
        rw [grid_create_none_eq, if_neg hd, Option.some.injEq] at hg
        subst hg
        exact ⟨rfl, rfl, rfl⟩
      | some l =>
        rw [grid_create_some_eq, if_neg hd, Option.some.injEq] at hg
        subst hg
        exact ⟨rfl, rfl, rfl⟩
  · intro l g hbuf hcnt hg
    subst hbuf
    rw [grid_create_some_eq] at hg
    by_cases hd : h ≤ 0 ∨ w ≤ 0
    · rw [if_pos hd] at hg
      exact absurd hg (by simp)
    · rw [if_neg hd, Option.some.injEq] at hg
      subst hg
      show (if 0 < cnt then l.take cnt.toNat else []) = l
      by_cases hc : 0 < cnt
      · rw [if_pos hc]
        have hln : cnt.toNat = l.length := by omega
        rw [hln, List.take_length]
      · rw [if_neg hc]
        have hl0 : l.length = 0 := by omega
        exact (List.eq_nil_of_length_eq_zero hl0).symm

/-- Witness for C6 at `h = 2, w = 3`, one cell `(5, 7)` (out of bounds, showing
construction does not bounds-check). -/
theorem grid_create_spec_witness :
    ({ height := 2, width := 3, positive_cells := [Position.mk 5 7],
       positive_cell_count := 1 } : Grid).positive_cells = [Position.mk 5 7] :=
  (grid_create_spec 2 3 (some [Position.mk 5 7]) 1).2.2 [Position.mk 5 7] _ rfl (by decide) rfl

/-! ### Claim C10: stored count versus copied cells -/

/-- C10: `grid_create` stores the caller's count unconditionally; when the
buffer is non-null and holds at least `positive_cell_count >= 0` positions,
every array index performed by the `i < positive_cell_count` loops of
`grid_validate_positions` / `get_cells` stays within the copied storage,
whereas a null buffer paired with a positive count leaves those reads out of
bounds. -/
theorem grid_create_reads_safe (h w cnt : Int) :
    (∀ buf g, grid_create h w (some buf) cnt = some g →
      g.positive_cell_count = cnt ∧
      (0 ≤ cnt → cnt ≤ (buf.length : Int) →
        grid_reads_in_bounds g ∧ (grid_cells_read g).length = cnt.toNat)) ∧
    (∀ g, grid_create h w none cnt = some g →
      g.positive_cell_count = cnt ∧ (0 < cnt → ¬ grid_reads_in_bounds g)) := by
  constructor
  · intro buf g hg
    rw [grid_create_some_eq] at hg
    by_cases hd : h ≤ 0 ∨ w ≤ 0
    · rw [if_pos hd] at hg
      exact absurd hg (by simp)
    · rw [if_neg hd, Option.some.injEq] at hg
      subst hg
      refine ⟨rfl, ?_⟩
      intro h0 hlen
      by_cases hc : 0 < cnt
      · constructor
        · show cnt.toNat ≤ (if 0 < cnt then buf.take cnt.toNat else []).length
          rw [if_pos hc, List.length_take]
          omega
        · show ((if 0 < cnt then buf.take cnt.toNat else []).take cnt.toNat).length = cnt.toNat
          rw [if_pos hc, List.take_take, List.length_take]
          simp only [min_self, List.length_take]
          omega
      · constructor
        · show cnt.toNat ≤ (if 0 < cnt then buf.take cnt.toNat else []).length
          rw [if_neg hc, List.length_nil]
          omega
        · show ((if 0 < cnt then buf.take cnt.toNat else []).take cnt.toNat).length = cnt.toNat
          rw [if_neg hc, List.take_nil, List.length_nil]
          omega
  · intro g hg
    rw [grid_create_none_eq] at hg
    by_cases hd : h ≤ 0 ∨ w ≤ 0
    · rw [if_pos hd] at hg
      exact absurd hg (by simp)
    · rw [if_neg hd, Option.some.injEq] at hg
      subst hg
      refine ⟨rfl, ?_⟩
      intro hc
      show ¬ cnt.toNat ≤ ([] : List Position).length
      rw [List.length_nil]
      omega

/-- Witness for C10 at a 1×1 grid with a one-element buffer. -/
theorem grid_create_reads_safe_witness :
    grid_reads_in_bounds (Grid.mk 1 1 [Position.mk 0 0] 1) :=
  (((grid_create_reads_safe 1 1 1).1 [Position.mk 0 0] _ rfl).2 (by decide) (by decide)).1

/-! ### Claim C8: the PositionSet uniqueness invariant -/

/-- C8: the empty set from `create` is duplicate-free, `clear` yields a
duplicate-free set, and `add` preserves the invariant; `add` returns `true`
exactly when the position was absent (and then the size grows by one), and
returns `false` leaving the set unchanged when it was present. -/
theorem position_set_invariant :
    position_set_create.Nodup ∧
    (∀ s : List Position, (position_set_clear s).Nodup) ∧
    (∀ (s : List Position) (p : Position), s.Nodup →
      ((position_set_add s p).2 = true ↔ position_set_contains s p = false) ∧
      (position_set_add s p).1.Nodup ∧
      (position_set_contains s p = true → (position_set_add s p).1 = s) ∧
      (position_set_contains s p = false →
        position_set_size (position_set_add s p).1 = position_set_size s + 1)) := by
  refine ⟨List.nodup_nil, fun s => List.nodup_nil, ?_⟩
  intro s p hnd
  refine ⟨?_, nodup_position_set_add_fst p hnd, ?_, ?_⟩
  · rw [position_set_add_snd_iff]
    constructor
    · intro hnm
      cases hb : position_set_contains s p
      · rfl
      · exact absurd ((position_set_contains_iff s p).mp hb) hnm
    · intro hf hm
      rw [(position_set_contains_iff s p).mpr hm] at hf
      simp at hf
  · intro hc
    exact position_set_add_fst_of_mem ((position_set_contains_iff s p).mp hc)
  · intro hc
    have hnm : p ∉ s := by
      intro hm
      rw [(position_set_contains_iff s p).mpr hm] at hc
      simp at hc
    rw [position_set_add_fst_of_not_mem hnm, position_set_size, position_set_size,
      List.length_append, List.length_singleton]

/-- Witness for C8 on the empty set and position `(0, 0)`. -/
theorem position_set_invariant_witness :
    (position_set_add [] (Position.mk 0 0)).2 = true ↔
      position_set_contains [] (Position.mk 0 0) = false :=
  (position_set_invariant.2.2 [] (Position.mk 0 0) List.nodup_nil).1

/-! ### Claim C3: validation order -/

theorem grid_validate_positions_false_iff (g : Grid) :
    grid_validate_positions g = false ↔
      ∃ c ∈ grid_cells_read g, grid_is_valid_position g c = false := by
  constructor
  · intro hf
    by_contra hc
    push_neg at hc
    have hv : grid_validate_positions g = true := by
      rw [grid_validate_positions_iff]
      intro c hcm
      cases hb : grid_is_valid_position g c
      · exact absurd hb (hc c hcm)
      · rfl
    rw [hv] at hf
    simp at hf
  · rintro ⟨c, hcm, hcf⟩
    cases hb : grid_validate_positions g
    · rfl
    · have := (grid_validate_positions_iff g).mp hb c hcm
      rw [hcf] at this
      simp at this

/-- C3: `get_cells` reports `InvalidGridDimensions` exactly for a null grid or
non-positive dimension; otherwise `InvalidDistanceThreshold` exactly for a
negative threshold; otherwise `PositionOutOfBounds` exactly when some stored
positive cell is out of bounds — the first failing check in this order wins. -/
theorem get_cells_validation_order (og : Option Grid) (n : Int) :
    (neighborhood_calculator_get_cells og n = Except.error ERROR_INVALID_GRID_DIMENSIONS ↔
      og = none ∨ ∃ g, og = some g ∧ (g.height ≤ 0 ∨ g.width ≤ 0)) ∧
    (neighborhood_calculator_get_cells og n = Except.error ERROR_INVALID_DISTANCE_THRESHOLD ↔
      ∃ g, og = some g ∧ 0 < g.height ∧ 0 < g.width ∧ n < 0) ∧
    (neighborhood_calculator_get_cells og n = Except.error ERROR_POSITION_OUT_OF_BOUNDS ↔
      ∃ g, og = some g ∧ 0 < g.height ∧ 0 < g.width ∧ 0 ≤ n ∧
        ∃ c ∈ grid_cells_read g, grid_is_valid_position g c = false) := by
  cases og with
  | none =>
    refine ⟨?_, ?_, ?_⟩
    · simp [neighborhood_calculator_get_cells]
    · simp [neighborhood_calculator_get_cells]
    · simp [neighborhood_calculator_get_cells]
  | some g =>
    simp only [neighborhood_calculator_get_cells]
    by_cases h1 : g.height ≤ 0 ∨ g.width ≤ 0
    · rw [if_pos h1]
      refine ⟨?_, ?_, ?_⟩
      · simp only [Except.error.injEq, true_iff, iff_true]
        exact Or.inr ⟨g, rfl, h1⟩
      · simp only [Except.error.injEq]
        constructor
        · intro he
          exact absurd he (by simp)
        · rintro ⟨g2, hg2, hh, hw, _⟩
          rw [Option.some.injEq] at hg2
          subst hg2
          omega
      · simp only [Except.error.injEq]
        constructor
        · intro he
          exact absurd he (by simp)
        · rintro ⟨g2, hg2, hh, hw, _⟩
          rw [Option.some.injEq] at hg2
          subst hg2
          omega
    · rw [if_neg h1]
      by_cases h2 : n < 0
      · rw [if_pos h2]
        refine ⟨?_, ?_, ?_⟩
        · simp only [Except.error.injEq]
          constructor
          · intro he
            exact absurd he (by simp)
          · rintro (hn | ⟨g2, hg2, hd⟩)
            · exact absurd hn (by simp)
            · rw [Option.some.injEq] at hg2
              subst hg2
              omega
        · simp only [Except.error.injEq, true_iff, iff_true]
          exact ⟨g, rfl, by omega, by omega, h2⟩
        · simp only [Except.error.injEq]
          constructor
          · intro he
            exact absurd he (by simp)
          · rintro ⟨g2, hg2, hh, hw, hn, _⟩
            rw [Option.some.injEq] at hg2
            subst hg2
            omega
      · rw [if_neg h2]
        by_cases h3 : grid_validate_positions g = false
        · rw [if_pos h3]
          refine ⟨?_, ?_, ?_⟩
          · simp only [Except.error.injEq]
            constructor
            · intro he
              exact absurd he (by simp)
            · rintro (hn | ⟨g2, hg2, hd⟩)
              · exact absurd hn (by simp)
              · rw [Option.some.injEq] at hg2
                subst hg2
                omega
          · simp only [Except.error.injEq]
            constructor
            · intro he
              exact absurd he (by simp)
            · rintro ⟨g2, hg2, hh, hw, hn⟩
              rw [Option.some.injEq] at hg2
              subst hg2
              omega
          · simp only [Except.error.injEq, true_iff, iff_true]
            exact ⟨g, rfl, by omega, by omega, by omega,
              (grid_validate_positions_false_iff g).mp h3⟩
        · rw [if_neg h3]
          have hok : ∀ e, (if g.positive_cell_count = 0 then
              Except.ok position_set_create
            else if n ≥ (g.height - 1) + (g.width - 1) then
              Except.ok (all_grid_cells g)
            else
              Except.ok ((grid_cells_read g).foldl
                (fun all_cells c =>
                  (enumerate_neighborhood c n g).foldl
                    (fun all_cells p => (position_set_add all_cells p).1)
                    all_cells)
                position_set_create)) ≠ (Except.error e : Except ErrorCode (List Position)) := by
            intro e
            by_cases h4 : g.positive_cell_count = 0
            · rw [if_pos h4]
              simp
            · rw [if_neg h4]
              by_cases h5 : n ≥ (g.height - 1) + (g.width - 1)
              · rw [if_pos h5]
                simp
              · rw [if_neg h5]
                simp
          refine ⟨?_, ?_, ?_⟩
          · constructor
            · intro he
              exact absurd he (hok _)
            · rintro (hn | ⟨g2, hg2, hd⟩)
              · exact absurd hn (by simp)
              · rw [Option.some.injEq] at hg2
                subst hg2
                omega
          · constructor
            · intro he
              exact absurd he (hok _)
            · rintro ⟨g2, hg2, hh, hw, hn⟩
              rw [Option.some.injEq] at hg2
              subst hg2
              omega
          · constructor
            · intro he
              exact absurd he (hok _)
            · rintro ⟨g2, hg2, hh, hw, hn, hc⟩
              rw [Option.some.injEq] at hg2
              subst hg2
              exact absurd ((grid_validate_positions_false_iff _).mpr hc) h3

/-! ### Claims C9 and C4: the `count` wrapper -/

theorem get_cells_error_cases (og : Option Grid) (n : Int) (e : ErrorCode)
    (h : neighborhood_calculator_get_cells og n = Except.error e) :
    e = ERROR_INVALID_GRID_DIMENSIONS ∨ e = ERROR_INVALID_DISTANCE_THRESHOLD ∨
      e = ERROR_POSITION_OUT_OF_BOUNDS := by
  cases og with
  | none =>
    simp only [neighborhood_calculator_get_cells, Except.error.injEq] at h
    exact Or.inl h.symm
  | some g =>
    simp only [neighborhood_calculator_get_cells] at h
    by_cases h1 : g.height ≤ 0 ∨ g.width ≤ 0
    · rw [if_pos h1, Except.error.injEq] at h
      exact Or.inl h.symm
    rw [if_neg h1] at h
    by_cases h2 : n < 0
    · rw [if_pos h2, Except.error.injEq] at h
      exact Or.inr (Or.inl h.symm)
    rw [if_neg h2] at h
    by_cases h3 : grid_validate_positions g = false
    · rw [if_pos h3, Except.error.injEq] at h
      exact Or.inr (Or.inr h.symm)
    rw [if_neg h3] at h
    by_cases h4 : g.positive_cell_count = 0
    · rw [if_pos h4] at h
      exact absurd h (by simp)
    rw [if_neg h4] at h
    by_cases h5 : n ≥ (g.height - 1) + (g.width - 1)
    · rw [if_pos h5] at h
      exact absurd h (by simp)
    · rw [if_neg h5] at h
      exact absurd h (by simp)

/-- C9: `count` returns the sentinel `-1` exactly when `get_cells` fails, and
then reports the same non-`ERROR_NONE` code; on success it returns the
(non-negative) set size with `ERROR_NONE`. -/
theorem count_sentinel (og : Option Grid) (n : Int) :
    (∀ e, neighborhood_calculator_get_cells og n = Except.error e →
      neighborhood_calculator_count og n = (-1, e) ∧ e ≠ ERROR_NONE) ∧
    (∀ s, neighborhood_calculator_get_cells og n = Except.ok s →
      neighborhood_calculator_count og n = (Int.ofNat (position_set_size s), ERROR_NONE) ∧
      0 ≤ (neighborhood_calculator_count og n).1) ∧
    ((neighborhood_calculator_count og n).1 = -1 ↔
      ∃ e, neighborhood_calculator_get_cells og n = Except.error e) := by
  refine ⟨?_, ?_, ?_⟩
  · intro e he
    constructor
    · simp [neighborhood_calculator_count, he]
    · rcases get_cells_error_cases og n e he with h | h | h <;> subst h <;> simp
  · intro s hs
    constructor
    · simp [neighborhood_calculator_count, hs]
    · simp [neighborhood_calculator_count, hs]
  · cases hr : neighborhood_calculator_get_cells og n with
    | error e =>
      simp only [neighborhood_calculator_count, hr]
      constructor
      · intro _
        exact ⟨e, rfl⟩
      · intro _
        trivial
    | ok s =>
      simp only [neighborhood_calculator_count, hr]
      constructor
      · intro hfalse
        simp only [Int.ofNat_eq_coe] at hfalse
        omega
      · rintro ⟨e, he⟩
        exact absurd he (by simp)

/-- Witness for C9 at a null grid. -/
theorem count_sentinel_witness :
    neighborhood_calculator_count none 0 = (-1, ERROR_INVALID_GRID_DIMENSIONS) ∧
      ERROR_INVALID_GRID_DIMENSIONS ≠ ERROR_NONE :=
  (count_sentinel none 0).1 ERROR_INVALID_GRID_DIMENSIONS rfl

/-- C4: whenever `get_cells` succeeds, `count` returns exactly the size of the
returned set with `ERROR_NONE`; the set is duplicate-free (no cell is counted
twice), and both operations are deterministic: the result is a function of the
grid and threshold alone. -/
theorem count_eq_get_cells_size (og : Option Grid) (n : Int) (s : List Position)
    (h : neighborhood_calculator_get_cells og n = Except.ok s) :
    neighborhood_calculator_count og n = (Int.ofNat (position_set_size s), ERROR_NONE) ∧
    s.Nodup ∧
    (∀ s2, neighborhood_calculator_get_cells og n = Except.ok s2 → s2 = s) := by
  refine ⟨?_, get_cells_ok_nodup og n s h, ?_⟩
  · simp [neighborhood_calculator_count, h]
  · intro s2 h2
    rw [h, Except.ok.injEq] at h2
    exact h2.symm

/-- Witness for C4 on the 1×1 grid with positive cell `(0, 0)` and `N = 0`. -/
theorem count_eq_get_cells_size_witness :
    neighborhood_calculator_count (some (Grid.mk 1 1 [Position.mk 0 0] 1)) 0 =
      (Int.ofNat (position_set_size [Position.mk 0 0]), ERROR_NONE) :=
  (count_eq_get_cells_size (some (Grid.mk 1 1 [Position.mk 0 0] 1)) 0
    [Position.mk 0 0] rfl).1

/-! ### Claim C1: exact characterization of the result set -/

/-- C1: for every grid whose positive cells are in bounds and every threshold
`N >= 0`, the set returned by `get_cells` contains exactly the in-bounds
positions within Manhattan distance `N` of some positive cell — this covers
the saturation fast path and the general enumeration path alike. -/
theorem get_cells_exact_union (g : Grid) (n : Int)
    (hwf : g.positive_cell_count = (g.positive_cells.length : Int))
    (hh : 0 < g.height) (hw : 0 < g.width)
    (hv : grid_validate_positions g = true) (hn : 0 ≤ n) :
    ∃ s, neighborhood_calculator_get_cells (some g) n = Except.ok s ∧
      ∀ p, position_set_contains s p = true ↔
        (grid_is_valid_position g p = true ∧
          ∃ c ∈ g.positive_cells, position_manhattan_distance c p ≤ n) := by
  obtain ⟨s, hs, _, hmem⟩ := get_cells_spec g n hwf hh hw hv hn
  exact ⟨s, hs, fun p => (position_set_contains_iff s p).trans (hmem p)⟩

/-- Witness for C1 on a 2×2 grid with positive cell `(0, 0)` and `N = 0`. -/
theorem get_cells_exact_union_witness :
    ∃ s, neighborhood_calculator_get_cells (some (Grid.mk 2 2 [Position.mk 0 0] 1)) 0 =
        Except.ok s ∧
      ∀ p, position_set_contains s p = true ↔
        (grid_is_valid_position (Grid.mk 2 2 [Position.mk 0 0] 1) p = true ∧
          ∃ c ∈ (Grid.mk 2 2 [Position.mk 0 0] 1).positive_cells,
            position_manhattan_distance c p ≤ 0) :=
  get_cells_exact_union (Grid.mk 2 2 [Position.mk 0 0] 1) 0
    (by decide) (by decide) (by decide) (by decide) (by decide)

/-! ### Claim C2: saturation -/

/-- C2: with at least one (in-bounds) positive cell and
`N >= (height-1)+(width-1)` — note the comparison is `>=` — `count` returns
`height * width` and `get_cells` returns the set of all grid cells; with zero
positive cells the shortcut does not apply and the result is empty. -/
theorem saturation_count :
    (∀ (g : Grid) (n : Int),
      g.positive_cell_count = (g.positive_cells.length : Int) →
      g.positive_cells ≠ [] →
      0 < g.height → 0 < g.width →
      grid_validate_positions g = true →
      (g.height - 1) + (g.width - 1) ≤ n →
      (neighborhood_calculator_count (some g) n).1 = g.height * g.width ∧
      (∃ s, neighborhood_calculator_get_cells (some g) n = Except.ok s ∧
        position_set_size s = (g.height * g.width).toNat ∧
        ∀ p, p ∈ s ↔ grid_is_valid_position g p = true)) ∧
    (∀ (g : Grid) (n : Int),
      g.positive_cell_count = (g.positive_cells.length : Int) →
      g.positive_cells = [] →
      0 < g.height → 0 < g.width → 0 ≤ n →
      neighborhood_calculator_get_cells (some g) n = Except.ok [] ∧
      (neighborhood_calculator_count (some g) n).1 = 0) := by
  constructor
  · intro g n hwf hne hh hw hv hsat
    have hn : 0 ≤ n := by omega
    obtain ⟨s, hs, hnd, hmem⟩ := get_cells_spec g n hwf hh hw hv hn
    have hvalid : ∀ c ∈ g.positive_cells, grid_is_valid_position g c = true := by
      intro c hc
      exact (grid_validate_positions_iff g).mp hv c ((grid_cells_read_eq hwf) ▸ hc)
    have hmem2 : ∀ p, p ∈ s ↔ grid_is_valid_position g p = true := by
      intro p
      rw [hmem p]
      constructor
      · rintro ⟨hp, _⟩
        exact hp
      · intro hp
        refine ⟨hp, ?_⟩
        obtain ⟨c, hc⟩ := List.exists_mem_of_ne_nil g.positive_cells hne
        exact ⟨c, hc, le_trans (dist_le_diameter (hvalid c hc) hp) hsat⟩
    have htf : s.toFinset = grid_cell_finset g := by
      ext p
      rw [List.mem_toFinset, hmem2, mem_grid_cell_finset]
    have hlen : s.length = g.height.toNat * g.width.toNat := by
      rw [← List.toFinset_card_of_nodup hnd, htf, card_grid_cell_finset]
    have hmul : g.height * g.width = ((g.height.toNat * g.width.toNat : Nat) : Int) := by
      rw [Nat.cast_mul, Int.toNat_of_nonneg hh.le, Int.toNat_of_nonneg hw.le]
    refine ⟨?_, s, hs, ?_, hmem2⟩
    · simp only [neighborhood_calculator_count, hs]
      show Int.ofNat (position_set_size s) = g.height * g.width
      rw [position_set_size, hlen, hmul]
      rfl
    · rw [position_set_size, hlen, hmul, Int.toNat_natCast]
  · intro g n hwf hcells hh hw hn
    have hv : grid_validate_positions g = true := by
      rw [grid_validate_positions, grid_cells_read, hcells]
      simp
    obtain ⟨s, hs, hnd, hmem⟩ := get_cells_spec g n hwf hh hw hv hn
    have hsnil : s = [] := by
      rw [List.eq_nil_iff_forall_not_mem]
      intro p hp
      obtain ⟨_, c, hc, _⟩ := (hmem p).mp hp
      rw [hcells] at hc
      exact absurd hc (List.not_mem_nil c)
    subst hsnil
    refine ⟨hs, ?_⟩
    simp [neighborhood_calculator_count, hs, position_set_size]

/-- Witness for C2: a 1×2 grid with cell `(0, 0)` at `N = 1` (equal to the
diameter) saturates to 2 cells; a 1×1 grid with no positive cells yields 0. -/
theorem saturation_count_witness :
    (neighborhood_calculator_count (some (Grid.mk 1 2 [Position.mk 0 0] 1)) 1).1 =
        (1 : Int) * 2 ∧
    (neighborhood_calculator_count (some (Grid.mk 1 1 ([] : List Position) 0)) 0).1 = 0 :=
  ⟨(saturation_count.1 (Grid.mk 1 2 [Position.mk 0 0] 1) 1
      (by decide) (by decide) (by decide) (by decide) (by decide) (by decide)).1,
   (saturation_count.2 (Grid.mk 1 1 ([] : List Position) 0) 0
      (by decide) rfl (by decide) (by decide) (by decide)).2⟩

/-! ### Claim C7: additivity of two-cell neighborhoods -/

theorem midpoint_int (r1 cc1 r2 cc2 n : Int) (hn : 0 ≤ n)
    (hd : ((r1 - r2).natAbs : Int) + ((cc1 - cc2).natAbs : Int) ≤ 2 * n) :
    ∃ mr mc : Int,
      (min r1 r2 ≤ mr ∧ mr ≤ max r1 r2) ∧ (min cc1 cc2 ≤ mc ∧ mc ≤ max cc1 cc2) ∧
      ((r1 - mr).natAbs : Int) + ((cc1 - mc).natAbs : Int) ≤ n ∧
      ((r2 - mr).natAbs : Int) + ((cc2 - mc).natAbs : Int) ≤ n := by
  rcases le_total r1 r2 with hr | hr <;> rcases le_total cc1 cc2 with hc | hc
  · refine ⟨r1 + min (max 0 (r2 - r1 + (cc2 - cc1) - n)) (r2 - r1),
      cc1 + (max 0 (r2 - r1 + (cc2 - cc1) - n) -
        min (max 0 (r2 - r1 + (cc2 - cc1) - n)) (r2 - r1)), ?_, ?_, ?_, ?_⟩ <;> omega
  · refine ⟨r1 + min (max 0 (r2 - r1 + (cc1 - cc2) - n)) (r2 - r1),
      cc1 - (max 0 (r2 - r1 + (cc1 - cc2) - n) -
        min (max 0 (r2 - r1 + (cc1 - cc2) - n)) (r2 - r1)), ?_, ?_, ?_, ?_⟩ <;> omega
  · refine ⟨r1 - min (max 0 (r1 - r2 + (cc2 - cc1) - n)) (r1 - r2),
      cc1 + (max 0 (r1 - r2 + (cc2 - cc1) - n) -
        min (max 0 (r1 - r2 + (cc2 - cc1) - n)) (r1 - r2)), ?_, ?_, ?_, ?_⟩ <;> omega
  · refine ⟨r1 - min (max 0 (r1 - r2 + (cc1 - cc2) - n)) (r1 - r2),
      cc1 - (max 0 (r1 - r2 + (cc1 - cc2) - n) -
        min (max 0 (r1 - r2 + (cc1 - cc2) - n)) (r1 - r2)), ?_, ?_, ?_, ?_⟩ <;> omega

/-- C7: for a grid holding exactly the two in-bounds positive cells `c1`, `c2`
and threshold `N >= 0`: if no position lies in both radius-`N` diamonds the
two-cell count equals the sum of the single-cell counts, and if the diamonds
intersect it is strictly smaller. -/
theorem two_cell_additivity (h w n : Int) (c1 c2 : Position)
    (hh : 0 < h) (hw : 0 < w) (hn : 0 ≤ n)
    (hb1 : grid_is_valid_position (Grid.mk h w [c1, c2] 2) c1 = true)
    (hb2 : grid_is_valid_position (Grid.mk h w [c1, c2] 2) c2 = true) :
    ((¬ ∃ p : Position, position_manhattan_distance c1 p ≤ n ∧
        position_manhattan_distance c2 p ≤ n) →
      (neighborhood_calculator_count (some (Grid.mk h w [c1, c2] 2)) n).1 =
        (neighborhood_calculator_count (some (Grid.mk h w [c1] 1)) n).1 +
        (neighborhood_calculator_count (some (Grid.mk h w [c2] 1)) n).1) ∧
    ((∃ p : Position, position_manhattan_distance c1 p ≤ n ∧
        position_manhattan_distance c2 p ≤ n) →
      (neighborhood_calculator_count (some (Grid.mk h w [c1, c2] 2)) n).1 <
        (neighborhood_calculator_count (some (Grid.mk h w [c1] 1)) n).1 +
        (neighborhood_calculator_count (some (Grid.mk h w [c2] 1)) n).1) := by
  have hwf12 : (Grid.mk h w [c1, c2] 2).positive_cell_count =
      (((Grid.mk h w [c1, c2] 2).positive_cells.length : Nat) : Int) := rfl
  have hwf1 : (Grid.mk h w [c1] 1).positive_cell_count =
      (((Grid.mk h w [c1] 1).positive_cells.length : Nat) : Int) := rfl
  have hwf2 : (Grid.mk h w [c2] 1).positive_cell_count =
      (((Grid.mk h w [c2] 1).positive_cells.length : Nat) : Int) := rfl
  have hv12 : grid_validate_positions (Grid.mk h w [c1, c2] 2) = true := by
    rw [grid_validate_positions_iff, grid_cells_read_eq hwf12]
    intro c hc
    rcases List.mem_cons.mp hc with rfl | hc2
    · exact hb1
    · rcases List.mem_cons.mp hc2 with rfl | hc3
      · exact hb2
      · exact absurd hc3 (List.not_mem_nil _)
  have hv1 : grid_validate_positions (Grid.mk h w [c1] 1) = true := by
    rw [grid_validate_positions_iff, grid_cells_read_eq hwf1]
    intro c hc
    rcases List.mem_cons.mp hc with rfl | hc2
    · exact hb1
    · exact absurd hc2 (List.not_mem_nil _)
  have hv2 : grid_validate_positions (Grid.mk h w [c2] 1) = true := by
    rw [grid_validate_positions_iff, grid_cells_read_eq hwf2]
    intro c hc
    rcases List.mem_cons.mp hc with rfl | hc2
    · exact hb2
    · exact absurd hc2 (List.not_mem_nil _)
  obtain ⟨s12, hs12, hnd12, hm12⟩ := get_cells_spec (Grid.mk h w [c1, c2] 2) n hwf12 hh hw hv12 hn
  obtain ⟨s1, hs1, hnd1, hm1⟩ := get_cells_spec (Grid.mk h w [c1] 1) n hwf1 hh hw hv1 hn
  obtain ⟨s2, hs2, hnd2, hm2⟩ := get_cells_spec (Grid.mk h w [c2] 1) n hwf2 hh hw hv2 hn
  have hm12a : ∀ p, p ∈ s12 ↔ (grid_is_valid_position (Grid.mk h w [c1, c2] 2) p = true ∧
      (position_manhattan_distance c1 p ≤ n ∨ position_manhattan_distance c2 p ≤ n)) := by
    intro p
    rw [hm12 p]
    constructor
    · rintro ⟨hvp, c, hc, hdp⟩
      refine ⟨hvp, ?_⟩
      rcases List.mem_cons.mp hc with rfl | hc2
      · exact Or.inl hdp
      · rcases List.mem_cons.mp hc2 with rfl | hc3
        · exact Or.inr hdp
        · exact absurd hc3 (List.not_mem_nil _)
    · rintro ⟨hvp, hdp | hdp⟩
      · exact ⟨hvp, c1, List.mem_cons_self _ _, hdp⟩
      · exact ⟨hvp, c2, List.mem_cons_of_mem _ (List.mem_cons_self _ _), hdp⟩
  have hm1a : ∀ p, p ∈ s1 ↔ (grid_is_valid_position (Grid.mk h w [c1, c2] 2) p = true ∧
      position_manhattan_distance c1 p ≤ n) := by
    intro p
    rw [hm1 p]
    constructor
    · rintro ⟨hvp, c, hc, hdp⟩
      rcases List.mem_cons.mp hc with rfl | hc2
      · exact ⟨hvp, hdp⟩
      · exact absurd hc2 (List.not_mem_nil _)
    · rintro ⟨hvp, hdp⟩
      exact ⟨hvp, c1, List.mem_cons_self _ _, hdp⟩
  have hm2a : ∀ p, p ∈ s2 ↔ (grid_is_valid_position (Grid.mk h w [c1, c2] 2) p = true ∧
      position_manhattan_distance c2 p ≤ n) := by
    intro p
    rw [hm2 p]
    constructor
    · rintro ⟨hvp, c, hc, hdp⟩
      rcases List.mem_cons.mp hc with rfl | hc2
      · exact ⟨hvp, hdp⟩
      · exact absurd hc2 (List.not_mem_nil _)
    · rintro ⟨hvp, hdp⟩
      exact ⟨hvp, c2, List.mem_cons_self _ _, hdp⟩
  have hunion : s12.toFinset = s1.toFinset ∪ s2.toFinset := by
    ext p
    simp only [List.mem_toFinset, Finset.mem_union]
    rw [hm12a, hm1a, hm2a]
    tauto
  have hcards := Finset.card_union_add_card_inter s1.toFinset s2.toFinset
  have hl12 : s12.length = s12.toFinset.card := (List.toFinset_card_of_nodup hnd12).symm
  have hl1 : s1.length = s1.toFinset.card := (List.toFinset_card_of_nodup hnd1).symm
  have hl2 : s2.length = s2.toFinset.card := (List.toFinset_card_of_nodup hnd2).symm
  have hc12 : (neighborhood_calculator_count (some (Grid.mk h w [c1, c2] 2)) n).1 =
      (s12.length : Int) := by
    simp [neighborhood_calculator_count, hs12, position_set_size, Int.ofNat_eq_coe]
  have hc1 : (neighborhood_calculator_count (some (Grid.mk h w [c1] 1)) n).1 =
      (s1.length : Int) := by
    simp [neighborhood_calculator_count, hs1, position_set_size, Int.ofNat_eq_coe]
  have hc2v : (neighborhood_calculator_count (some (Grid.mk h w [c2] 1)) n).1 =
      (s2.length : Int) := by
    simp [neighborhood_calculator_count, hs2, position_set_size, Int.ofNat_eq_coe]
  constructor
  · intro hdisj
    have hinter : s1.toFinset ∩ s2.toFinset = ∅ := by
      rw [Finset.eq_empty_iff_forall_not_mem]
      intro p hp
      rw [Finset.mem_inter, List.mem_toFinset, List.mem_toFinset, hm1a, hm2a] at hp
      exact hdisj ⟨p, hp.1.2, hp.2.2⟩
    have hnat : s12.length = s1.length + s2.length := by
      rw [hl12, hl1, hl2, hunion]
      have h0 : (s1.toFinset ∩ s2.toFinset).card = 0 := by
        rw [hinter]
        rfl
      omega
    rw [hc12, hc1, hc2v]
    omega
  · intro hmeet
    obtain ⟨p0, hp1, hp2⟩ := hmeet
    have hdd : ((c1.row - c2.row).natAbs : Int) + ((c1.column - c2.column).natAbs : Int) ≤
        2 * n := by
      simp only [position_manhattan_distance] at hp1 hp2
      omega
    obtain ⟨mr, mc, hmr, hmc, hd1, hd2⟩ :=
      midpoint_int c1.row c1.column c2.row c2.column n hn hdd
    have hbb1 := (grid_is_valid_position_iff _ c1).mp hb1
    have hbb2 := (grid_is_valid_position_iff _ c2).mp hb2
    have hmvalid : grid_is_valid_position (Grid.mk h w [c1, c2] 2) (Position.mk mr mc) = true := by
      rw [grid_is_valid_position_iff]
      simp only at hbb1 hbb2 ⊢
      omega
    have hmmem : Position.mk mr mc ∈ s1.toFinset ∩ s2.toFinset := by
      rw [Finset.mem_inter, List.mem_toFinset, List.mem_toFinset, hm1a, hm2a]
      refine ⟨⟨hmvalid, ?_⟩, ⟨hmvalid, ?_⟩⟩
      · simp only [position_manhattan_distance]
        omega
      · simp only [position_manhattan_distance]
        omega
    have hpos : 0 < (s1.toFinset ∩ s2.toFinset).card := Finset.card_pos.mpr ⟨_, hmmem⟩
    have hnat : s12.length < s1.length + s2.length := by
      rw [hl12, hl1, hl2, hunion]
      omega
    rw [hc12, hc1, hc2v]
    omega

/-- Witness for C7 on a 3×3 grid with cells `(0,0)` and `(0,2)` at `N = 1`,
whose diamonds share the cell `(0,1)`. -/
theorem two_cell_additivity_witness :
    (neighborhood_calculator_count
        (some (Grid.mk 3 3 [Position.mk 0 0, Position.mk 0 2] 2)) 1).1 <
      (neighborhood_calculator_count (some (Grid.mk 3 3 [Position.mk 0 0] 1)) 1).1 +
      (neighborhood_calculator_count (some (Grid.mk 3 3 [Position.mk 0 2] 1)) 1).1 :=
  (two_cell_additivity 3 3 1 (Position.mk 0 0) (Position.mk 0 2)
    (by decide) (by decide) (by decide) (by decide) (by decide)).2
    ⟨Position.mk 0 1, by decide, by decide⟩
